import Mathlib

/-!
Verification of the Wintermute portal router (portal-server/app.py):
signature verification, the deduplicating job dispatcher `enqueue_job`,
the background worker loop, and the webhook request-validation path.
Python dictionaries are modelled as association lists, wall-clock times
as integers, and the external HMAC-SHA256 primitive as a parameter.
-/

namespace Portal

/-- A Python-style value as it appears in payload/result dictionaries. -/
inductive PyVal where
  | none
  | bool (b : Bool)
  | int (n : Int)
  | str (s : String)
  deriving Repr, DecidableEq

/-- Python truthiness of a value. -/
def PyVal.truthy : PyVal → Bool
  | .none => false
  | .bool b => b
  | .int n => decide (n ≠ 0)
  | .str s => decide (s ≠ "")

/-- A Python dict with string keys and `PyVal` values. -/
abbrev Dict := List (String × PyVal)

/-- Association-list lookup (Python `d.get(k)` / `d[k]`). -/
def alookup {κ α : Type} [DecidableEq κ] : List (κ × α) → κ → Option α
  | [], _ => Option.none
  | (k, v) :: rest, key => if k = key then some v else alookup rest key

/-- Association-list overwrite-or-append (Python `d[k] = v`). -/
def ainsert {κ α : Type} [DecidableEq κ] : List (κ × α) → κ → α → List (κ × α)
  | [], key, v => [(key, v)]
  | (k, w) :: rest, key, v =>
      if k = key then (key, v) :: rest else (k, w) :: ainsert rest key v

/-- In-place update of the entry at a key, if present
(Python `d[k].update(...)` / mutating the stored record). -/
def aupdate {κ α : Type} [DecidableEq κ] : List (κ × α) → κ → (α → α) → List (κ × α)
  | [], _, _ => []
  | (k, v) :: rest, key, f =>
      if k = key then (k, f v) :: rest else (k, v) :: aupdate rest key f

/-- Python `result.get("success")` truthiness: absent key is falsy. -/
def Dict.truthyAt (d : Dict) (k : String) : Bool :=
  match alookup d k with
  | Option.none => false
  | some v => v.truthy

/-- The webhook-related fields of `config.Config`. -/
structure Config where
  PORTAL_WEBHOOK_SECRET : String
  PORTAL_WEBHOOK_TTL_SECONDS : Int
  PORTAL_DEDUP_WINDOW_SECONDS : Int
  deriving Repr, DecidableEq

/-- The status values written to (or returned from) the job-status store. -/
inductive JobStatus where
  | queued
  | in_progress
  | succeeded
  | failed
  | deduped
  deriving Repr, DecidableEq

/-- A queued portal job (dataclass `PortalJob`). -/
structure PortalJob where
  job_id : String
  portal_id : String
  action : String
  payload : Dict
  created_at : Int
  deriving Repr, DecidableEq

/-- A job-status dict as stored in `job_status` or returned by `enqueue_job`.
Optional fields model keys that a given dict may or may not carry. -/
structure JobStatusRecord where
  job_id : String
  status : JobStatus
  portal_id : String
  action : String
  created_at : Option String := Option.none
  updated_at : Option String := Option.none
  result : Option Dict := Option.none
  error : Option String := Option.none
  message : Option String := Option.none
  accepted_at : Option String := Option.none
  deriving Repr, DecidableEq

/-- An entry of `portal_last_job`: the most recently accepted job for a key. -/
structure LastJob where
  job_id : String
  enqueued_at : Int
  deriving Repr, DecidableEq

/-- The module-level mutable state of app.py: the job queue, the
job-status store, and the dedup index `portal_last_job`. -/
structure ServerState where
  job_queue : List PortalJob
  job_status : List (String × JobStatusRecord)
  portal_last_job : List (String × LastJob)
  deriving Repr, DecidableEq

/-- The empty initial state at process start. -/
def ServerState.init : ServerState :=
  { job_queue := [], job_status := [], portal_last_job := [] }

/-- `build_signature`: the hex HMAC-SHA256 of `"{portal_id}:{timestamp}"`
keyed by the secret.  `hmacHex secret message` stands for the external
`hmac.new(secret, message, hashlib.sha256).hexdigest()` primitive. -/
def build_signature (hmacHex : String → String → String)
    (portal_id : String) (timestamp : Int) (secret : String) : String :=
  hmacHex secret (portal_id ++ ":" ++ toString timestamp)

/-- `verify_signature`: verify the HMAC signature when the webhook secret
is configured.  `now` is the value of `int(time.time())`; a missing
request field is `Option.none`, and Python's `not signature` also treats
the empty string as missing. -/
def verify_signature (hmacHex : String → String → String) (cfg : Config)
    (now : Int) (portal_id : String)
    (timestamp : Option Int) (signature : Option String) : Bool × String :=
  let secret := cfg.PORTAL_WEBHOOK_SECRET
  if secret = "" then (true, "")
  else
    match timestamp, signature with
    | some ts, some sig =>
        if sig = "" then (false, "Missing signature or timestamp")
        else if |now - ts| > cfg.PORTAL_WEBHOOK_TTL_SECONDS then
          (false, "Signature timestamp expired")
        else
          let expected := build_signature hmacHex portal_id ts secret
          if ¬(expected = sig) then (false, "Invalid signature")
          else (true, "")
    | _, _ => (false, "Missing signature or timestamp")

/-- The character set accepted by `validate_portal_id`. -/
def valid_chars : List Char := "abcdefghijklmnopqrstuvwxyz0123456789".toList

/-- `validate_portal_id`: 2-24 chars, checked against the lowercase
alphanumeric set after `portal_id.lower()` (`Char.toLower` per character,
matching `str.lower` on the ASCII range). -/
def validate_portal_id (portal_id : String) : Bool :=
  if portal_id = "" then false
  else if portal_id.length < 2 ∨ portal_id.length > 24 then false
  else (portal_id.toList.map Char.toLower).all (fun c => valid_chars.contains c)

/-- The accept branch of `enqueue_job`: create the job, push it on the
queue, insert the `queued` status record, and overwrite the dedup entry.
`now` is `time.time()` captured at entry; `nowIso` the `utc_now_iso()`
value; `fresh_id` the generated `uuid.uuid4().hex`. -/
def enqueue_new (now : Int) (nowIso fresh_id portal_id action : String)
    (payload : Dict) (s : ServerState) : JobStatusRecord × ServerState :=
  let job : PortalJob :=
    { job_id := fresh_id, portal_id := portal_id, action := action,
      payload := payload, created_at := now }
  let status : JobStatusRecord :=
    { job_id := fresh_id, status := JobStatus.queued, portal_id := portal_id,
      action := action, created_at := some nowIso, updated_at := some nowIso }
  (status,
   { job_queue := s.job_queue ++ [job],
     job_status := ainsert s.job_status fresh_id status,
     portal_last_job :=
       ainsert s.portal_last_job portal_id
         { job_id := fresh_id, enqueued_at := now } })

/-- `enqueue_job`: under the job lock, consult `portal_last_job`; on a
dedup hit return a fresh "deduped" reply and leave the state unchanged,
otherwise run the accept branch. -/
def enqueue_job (cfg : Config) (now : Int) (nowIso fresh_id portal_id action : String)
    (payload : Dict) (s : ServerState) : JobStatusRecord × ServerState :=
  match alookup s.portal_last_job portal_id with
  | some last_entry =>
      if now - last_entry.enqueued_at ≤ cfg.PORTAL_DEDUP_WINDOW_SECONDS then
        ({ job_id := last_entry.job_id, status := JobStatus.deduped,
           portal_id := portal_id, action := action,
           message := some "Duplicate request ignored" }, s)
      else enqueue_new now nowIso fresh_id portal_id action payload s
  | Option.none => enqueue_new now nowIso fresh_id portal_id action payload s

/-- The outcome of `await action_registry.execute(job.action, job.payload)`:
either a normal return with a result dict, or a raised exception whose
`str(e)` is `msg`. -/
inductive ExecOutcome where
  | ok (result : Dict)
  | exc (msg : String)
  deriving Repr, DecidableEq

/-- A worker claiming a job: under the lock, set the record's status to
`in_progress` and refresh `updated_at` (portal_worker, first block). -/
def worker_claim (nowIso : String) (job_id : String) (s : ServerState) : ServerState :=
  { s with
    job_status := aupdate s.job_status job_id
      (fun r => { r with status := JobStatus.in_progress, updated_at := some nowIso }) }

/-- A worker recording the executor's outcome (portal_worker, try/except):
on a normal return, `succeeded` iff `result.get("success")` is truthy and
the result dict is stored; on an exception, `failed` with the error text.
`updated_at` is refreshed either way and the remaining fields are kept. -/
def worker_finish (nowIso : String) (job_id : String) (outcome : ExecOutcome)
    (s : ServerState) : ServerState :=
  match outcome with
  | ExecOutcome.ok result =>
      let status :=
        if result.truthyAt "success" then JobStatus.succeeded else JobStatus.failed
      { s with
        job_status := aupdate s.job_status job_id
          (fun r => { r with status := status, result := some result,
                             updated_at := some nowIso }) }
  | ExecOutcome.exc msg =>
      { s with
        job_status := aupdate s.job_status job_id
          (fun r => { r with status := JobStatus.failed, error := some msg,
                             updated_at := some nowIso }) }

/-- The decoded JSON body of a `POST /wm/hooks/portal` request. -/
structure WebhookData where
  portal_id : Option String
  timestamp : Option Int
  signature : Option String
  deriving Repr, DecidableEq

/-- The outcome of the request-validation prefix of `portal_webhook`. -/
inductive AuthResult where
  | badRequest (msg : String)
  | unauthorized (msg : String)
  | notFound
  | configError
  | dispatch (portal_id : String) (action : PyVal)
  deriving Repr, DecidableEq

/-- The request-validation prefix of `portal_webhook` (body decoding,
portal-id validation, signature verification, portal-config lookup),
up to the point where `enqueue_job` would be called with the resolved
action.  `portals` models the loaded `portals.json`. -/
def portal_webhook_auth (hmacHex : String → String → String) (cfg : Config)
    (now : Int) (portals : List (String × Dict)) (data : Option WebhookData) :
    AuthResult :=
  match data with
  | Option.none => AuthResult.badRequest "Request body must be JSON"
  | some d =>
      match d.portal_id with
      | Option.none => AuthResult.badRequest "Missing portal_id"
      | some pid =>
          if pid = "" then AuthResult.badRequest "Missing portal_id"
          else if validate_portal_id pid = false then
            AuthResult.badRequest
              "Portal ID must be 2-24 lowercase alphanumeric characters"
          else
            match verify_signature hmacHex cfg now pid d.timestamp d.signature with
            | (false, err) => AuthResult.unauthorized err
            | (true, _) =>
                match alookup portals pid with
                | Option.none => AuthResult.notFound
                | some pcfg =>
                    if pcfg = [] then AuthResult.notFound
                    else
                      match alookup pcfg "action" with
                      | Option.none => AuthResult.configError
                      | some a =>
                          if a.truthy then AuthResult.dispatch pid a
                          else AuthResult.configError

/-! ### The dispatcher/worker transition system

`Sys` is the shared state plus the multiset of jobs currently claimed by
workers; `SysStep` interleaves dispatcher calls (`enqueue_job`) with the
two store-writing blocks of `portal_worker` (claim and finish), each of
which runs under the job lock in the source. -/

structure Sys where
  state : ServerState
  inflight : List PortalJob
  deriving Repr, DecidableEq

/-- One atomic step of the running system. `enqueue` requires the
generated uuid to be fresh (`uuid.uuid4().hex` collisions are assumed
away); `claim` pops the queue head (asyncio.Queue is FIFO); `finish`
records the executor outcome for a claimed job. -/
inductive SysStep (cfg : Config) : Sys → Sys → Prop where
  | enqueue (now : Int) (nowIso fresh_id portal_id action : String) (payload : Dict)
      (s : Sys) (hfresh : alookup s.state.job_status fresh_id = Option.none) :
      SysStep cfg s
        { state := (enqueue_job cfg now nowIso fresh_id portal_id action payload s.state).2,
          inflight := s.inflight }
  | claim (nowIso : String) (job : PortalJob) (rest : List PortalJob) (s : Sys)
      (hq : s.state.job_queue = job :: rest) :
      SysStep cfg s
        { state := worker_claim nowIso job.job_id { s.state with job_queue := rest },
          inflight := job :: s.inflight }
  | finish (nowIso : String) (job : PortalJob) (outcome : ExecOutcome)
      (l1 l2 : List PortalJob) (s : Sys) (hin : s.inflight = l1 ++ job :: l2) :
      SysStep cfg s
        { state := worker_finish nowIso job.job_id outcome s.state,
          inflight := l1 ++ l2 }

/-- The system at process start: empty queue, store, index, no claims. -/
def Sys.init : Sys := { state := ServerState.init, inflight := [] }

/-- States reachable from process start. -/
def SysReach (cfg : Config) (s : Sys) : Prop :=
  Relation.ReflTransGen (SysStep cfg) Sys.init s

/-- The status of a job id in the store, if any. -/
def statusOf (s : Sys) (id : String) : Option JobStatus :=
  (alookup s.state.job_status id).map JobStatusRecord.status

/-- The allowed evolutions of a single job's stored status across one
step: unchanged, fresh insertion as `queued`, `queued → in_progress`,
or `in_progress → succeeded/failed`. -/
def transOk (a b : Option JobStatus) : Prop :=
  a = b ∨
  (a = Option.none ∧ b = some JobStatus.queued) ∨
  (a = some JobStatus.queued ∧ b = some JobStatus.in_progress) ∨
  (a = some JobStatus.in_progress ∧
    (b = some JobStatus.succeeded ∨ b = some JobStatus.failed))

/-- A status is terminal when it is `succeeded` or `failed`. -/
def terminal (st : JobStatus) : Prop :=
  st = JobStatus.succeeded ∨ st = JobStatus.failed

/-- What one step may do to the store, record by record: every status
evolves along `transOk`, a record whose status is terminal is not
changed at all, and `deduped` is never stored. -/
def StatusEvolutionOk (s s' : Sys) : Prop :=
  (∀ id, transOk (statusOf s id) (statusOf s' id)) ∧
  (∀ id r, alookup s.state.job_status id = some r → terminal r.status →
      alookup s'.state.job_status id = some r) ∧
  (∀ id r, alookup s'.state.job_status id = some r → r.status ≠ JobStatus.deduped)

/-! ### Lock-level interleaving of two concurrent `enqueue_job` calls

To check that `async with job_lock` makes the dedup-check-and-create
sequence atomic, the body of `enqueue_job` is broken into its individual
statements — dedup lookup/branch, `job_queue.put_nowait`, the
`job_status` insert, the `portal_last_job` overwrite — guarded by an
explicit lock, and two calls for the same `portal_id` are interleaved
arbitrarily.  Each call `i` captured `now = time.time()` before entering
the lock, so its time is a fixed parameter. -/

/-- Program counter of one `enqueue_job` call in the statement-level model. -/
inductive PC where
  | start
  | check
  | pushQueue
  | insertStatus
  | updateIndex
  | unlock
  | done
  deriving Repr, DecidableEq

/-- The statements executed while holding `job_lock`. -/
def PC.inCrit : PC → Bool
  | PC.start => false
  | PC.done => false
  | _ => true

/-- Per-call parameters fixed before the lock is entered. -/
structure TaskCtx where
  now : Int
  nowIso : String
  fresh_id : String

/-- Pointwise update of a `Bool`-indexed pair of task components. -/
def updB {α : Type} (f : Bool → α) (i : Bool) (v : α) : Bool → α :=
  fun j => if j = i then v else f j

/-- Global state of the two-call interleaving: who holds `job_lock`,
the shared server state, and each call's program counter and decision
(`some true` = passed the dedup check and is creating a job,
`some false` = took the dedup branch). -/
structure CSys where
  lock : Option Bool
  store : ServerState
  pc : Bool → PC
  outcome : Bool → Option Bool

/-- The job call `i` creates (enqueue_job, lines building `PortalJob`). -/
def taskJob (ctx : Bool → TaskCtx) (key act : String) (payload : Dict)
    (i : Bool) : PortalJob :=
  { job_id := (ctx i).fresh_id, portal_id := key, action := act,
    payload := payload, created_at := (ctx i).now }

/-- The status record call `i` inserts. -/
def taskStatus (ctx : Bool → TaskCtx) (key act : String) (i : Bool) :
    JobStatusRecord :=
  { job_id := (ctx i).fresh_id, status := JobStatus.queued, portal_id := key,
    action := act, created_at := some (ctx i).nowIso,
    updated_at := some (ctx i).nowIso }

/-- One statement of either call, with the lock semantics of
`asyncio.Lock`: `acquire` only fires when no one holds the lock, and
every statement of the body requires holding it. -/
inductive CStep (cfg : Config) (key act : String) (payload : Dict)
    (ctx : Bool → TaskCtx) : CSys → CSys → Prop where
  | acquire (i : Bool) (s : CSys) (hl : s.lock = Option.none)
      (hpc : s.pc i = PC.start) :
      CStep cfg key act payload ctx s
        { s with lock := some i, pc := updB s.pc i PC.check }
  | checkHit (i : Bool) (s : CSys) (e : LastJob) (hl : s.lock = some i)
      (hpc : s.pc i = PC.check)
      (he : alookup s.store.portal_last_job key = some e)
      (hwin : (ctx i).now - e.enqueued_at ≤ cfg.PORTAL_DEDUP_WINDOW_SECONDS) :
      CStep cfg key act payload ctx s
        { s with pc := updB s.pc i PC.unlock,
                 outcome := updB s.outcome i (some false) }
  | checkMiss (i : Bool) (s : CSys) (hl : s.lock = some i)
      (hpc : s.pc i = PC.check)
      (hmiss : ∀ e, alookup s.store.portal_last_job key = some e →
        (ctx i).now - e.enqueued_at > cfg.PORTAL_DEDUP_WINDOW_SECONDS) :
      CStep cfg key act payload ctx s
        { s with pc := updB s.pc i PC.pushQueue,
                 outcome := updB s.outcome i (some true) }
  | push (i : Bool) (s : CSys) (hl : s.lock = some i)
      (hpc : s.pc i = PC.pushQueue) :
      CStep cfg key act payload ctx s
        { s with
          store := { s.store with
            job_queue := s.store.job_queue ++ [taskJob ctx key act payload i] },
          pc := updB s.pc i PC.insertStatus }
  | insertStatus (i : Bool) (s : CSys) (hl : s.lock = some i)
      (hpc : s.pc i = PC.insertStatus) :
      CStep cfg key act payload ctx s
        { s with
          store := { s.store with
            job_status := ainsert s.store.job_status (ctx i).fresh_id
              (taskStatus ctx key act i) },
          pc := updB s.pc i PC.updateIndex }
  | updateIndex (i : Bool) (s : CSys) (hl : s.lock = some i)
      (hpc : s.pc i = PC.updateIndex) :
      CStep cfg key act payload ctx s
        { s with
          store := { s.store with
            portal_last_job := ainsert s.store.portal_last_job key
              { job_id := (ctx i).fresh_id, enqueued_at := (ctx i).now } },
          pc := updB s.pc i PC.unlock }
  | release (i : Bool) (s : CSys) (hl : s.lock = some i)
      (hpc : s.pc i = PC.unlock) :
      CStep cfg key act payload ctx s
        { s with lock := Option.none, pc := updB s.pc i PC.done }

/-- Both calls poised to run against an arbitrary starting server state. -/
def CSys.init (s₀ : ServerState) : CSys :=
  { lock := Option.none, store := s₀,
    pc := fun _ => PC.start, outcome := fun _ => Option.none }

/-- Interleavings reachable from the initial configuration. -/
def CReach (cfg : Config) (key act : String) (payload : Dict)
    (ctx : Bool → TaskCtx) (s₀ : ServerState) (s : CSys) : Prop :=
  Relation.ReflTransGen (CStep cfg key act payload ctx) (CSys.init s₀) s

/-- Call `i` has decided to create a new job. -/
def createdNewJob (s : CSys) (i : Bool) : Prop := s.outcome i = some true

/-! ### Heap-level model of `enqueue_job` and the webhook mutation

In Python the dict `enqueue_job` returns on the accept path is the very
object stored in `job_status`; `portal_webhook` then mutates it
(`job_info['accepted_at'] = ...`).  To state this aliasing, records live
on an explicit heap of addresses and `job_status` maps job ids to
addresses. -/

structure HeapState where
  heap : List (Nat × JobStatusRecord)
  job_queue : List PortalJob
  job_status : List (String × Nat)
  portal_last_job : List (String × LastJob)
  next_addr : Nat
  deriving Repr, DecidableEq

/-- `enqueue_job` with records as heap objects; returns the address of
the dict handed back to the caller.  The dedup branch allocates a fresh
reply dict that is never stored; the accept branch stores the very
address it returns. -/
def enqueue_job_heap (cfg : Config) (now : Int) (nowIso fresh_id portal_id action : String)
    (payload : Dict) (s : HeapState) : Nat × HeapState :=
  match alookup s.portal_last_job portal_id with
  | some last_entry =>
      if now - last_entry.enqueued_at ≤ cfg.PORTAL_DEDUP_WINDOW_SECONDS then
        (s.next_addr,
         { s with
           heap := ainsert s.heap s.next_addr
             { job_id := last_entry.job_id, status := JobStatus.deduped,
               portal_id := portal_id, action := action,
               message := some "Duplicate request ignored" },
           next_addr := s.next_addr + 1 })
      else
        enqueue_new_heap now nowIso fresh_id portal_id action payload s
  | Option.none => enqueue_new_heap now nowIso fresh_id portal_id action payload s
where
  enqueue_new_heap (now : Int) (nowIso fresh_id portal_id action : String)
      (payload : Dict) (s : HeapState) : Nat × HeapState :=
    (s.next_addr,
     { heap := ainsert s.heap s.next_addr
         { job_id := fresh_id, status := JobStatus.queued, portal_id := portal_id,
           action := action, created_at := some nowIso, updated_at := some nowIso },
       job_queue := s.job_queue ++
         [{ job_id := fresh_id, portal_id := portal_id, action := action,
            payload := payload, created_at := now }],
       job_status := ainsert s.job_status fresh_id s.next_addr,
       portal_last_job := ainsert s.portal_last_job portal_id
         { job_id := fresh_id, enqueued_at := now },
       next_addr := s.next_addr + 1 })

/-- The dispatch tail of `portal_webhook`: call `enqueue_job`, then
mutate the returned dict in place with `job_info['accepted_at'] =
utc_now_iso()`, and hand its address back to the response. -/
def portal_webhook_dispatch_heap (cfg : Config) (now : Int)
    (nowIso acceptIso fresh_id portal_id action : String) (payload : Dict)
    (s : HeapState) : Nat × HeapState :=
  let r := enqueue_job_heap cfg now nowIso fresh_id portal_id action payload s
  (r.1,
   { r.2 with
     heap := aupdate r.2.heap r.1 (fun rec => { rec with accepted_at := some acceptIso }) })

/-! ### Association-list lemmas -/

theorem alookup_ainsert_same {κ α : Type} [DecidableEq κ] (m : List (κ × α))
    (k : κ) (v : α) : alookup (ainsert m k v) k = some v := by
  induction m with
  | nil => simp [ainsert, alookup]
  | cons p rest ih =>
      obtain ⟨k', w⟩ := p
      by_cases h : k' = k
      · simp [ainsert, h, alookup]
      · simp [ainsert, h, alookup, ih]

theorem alookup_ainsert_other {κ α : Type} [DecidableEq κ] (m : List (κ × α))
    (k k' : κ) (v : α) (hne : k' ≠ k) :
    alookup (ainsert m k v) k' = alookup m k' := by
  induction m with
  | nil => simp [ainsert, alookup, Ne.symm hne]
  | cons p rest ih =>
      obtain ⟨k₀, w⟩ := p
      by_cases h : k₀ = k
      · subst h
        simp [ainsert, alookup, Ne.symm hne]
      · by_cases h' : k₀ = k'
        · simp [ainsert, h, alookup, h', hne]
        · simp [ainsert, h, alookup, h', ih]

theorem alookup_ainsert_cases {κ α : Type} [DecidableEq κ] (m : List (κ × α))
    (k k' : κ) (v : α) (r : α) (h : alookup (ainsert m k v) k' = some r) :
    (k' = k ∧ r = v) ∨ alookup m k' = some r := by
  by_cases hk : k' = k
  · subst hk
    rw [alookup_ainsert_same] at h
    exact Or.inl ⟨rfl, (Option.some_injective _ h).symm⟩
  · rw [alookup_ainsert_other m k k' v hk] at h
    exact Or.inr h

theorem alookup_aupdate_same {κ α : Type} [DecidableEq κ] (m : List (κ × α))
    (k : κ) (f : α → α) :
    alookup (aupdate m k f) k = (alookup m k).map f := by
  induction m with
  | nil => simp [aupdate, alookup]
  | cons p rest ih =>
      obtain ⟨k', w⟩ := p
      by_cases h : k' = k
      · simp [aupdate, h, alookup]
      · simp [aupdate, h, alookup, ih]

theorem alookup_aupdate_other {κ α : Type} [DecidableEq κ] (m : List (κ × α))
    (k k' : κ) (f : α → α) (hne : k' ≠ k) :
    alookup (aupdate m k f) k' = alookup m k' := by
  induction m with
  | nil => simp [aupdate, alookup]
  | cons p rest ih =>
      obtain ⟨k₀, w⟩ := p
      by_cases h : k₀ = k
      · subst h
        simp [aupdate, alookup, Ne.symm hne]
      · by_cases h' : k₀ = k'
        · simp [aupdate, h, alookup, h', hne]
        · simp [aupdate, h, alookup, h', ih]

theorem alookup_aupdate_cases {κ α : Type} [DecidableEq κ] (m : List (κ × α))
    (k k' : κ) (f : α → α) (r : α) (h : alookup (aupdate m k f) k' = some r) :
    (∃ r₀, alookup m k' = some r₀ ∧ r = f r₀) ∨ alookup m k' = some r := by
  by_cases hk : k' = k
  · subst hk
    rw [alookup_aupdate_same] at h
    match hm : alookup m k' with
    | Option.none => rw [hm] at h; simp at h
    | some r₀ =>
        rw [hm] at h
        simp only [Option.map_some'] at h
        exact Or.inl ⟨r₀, rfl, (Option.some_injective _ h).symm⟩
  · rw [alookup_aupdate_other m k k' f hk] at h
    exact Or.inr h

/-! ### Shared concrete instances for witnesses and counterexamples -/

/-- A stand-in for the external HMAC-SHA256 hex primitive, used only to
instantiate theorems at concrete inputs. -/
def hmacDemo : String → String → String :=
  fun k m => "hmac-" ++ k ++ "-" ++ m

/-- A concrete configuration: secret set, TTL 300s, dedup window 60s. -/
def cfgDemo : Config :=
  { PORTAL_WEBHOOK_SECRET := "S",
    PORTAL_WEBHOOK_TTL_SECONDS := 300,
    PORTAL_DEDUP_WINDOW_SECONDS := 60 }

/-! ### C3, C4: signature verification -/

/-- C3: with a secret configured and `|now - T| ≤ TTL`, verification of
`(some T, some s)` succeeds iff `s` is exactly the hex HMAC of
`"{key}:{T}"` keyed by the secret (so altering any character fails, with
reason `Invalid signature`); a stale timestamp fails with
`Signature timestamp expired` no matter the signature; absent timestamp
or absent/empty signature fails with the missing-credentials reason —
and the checks happen in that order: missing before stale (the missing
branch ignores `T`), stale before the HMAC comparison (the stale branch
ignores the signature's content). -/
theorem verify_signature_with_secret (hmacHex : String → String → String)
    (cfg : Config) (now : Int) (key : String)
    (hsec : cfg.PORTAL_WEBHOOK_SECRET ≠ "")
    (hhex : ∀ T : Int, build_signature hmacHex key T cfg.PORTAL_WEBHOOK_SECRET ≠ "") :
    (∀ (T : Int) (sig : String), |now - T| ≤ cfg.PORTAL_WEBHOOK_TTL_SECONDS →
      (verify_signature hmacHex cfg now key (some T) (some sig) = (true, "") ↔
        sig = build_signature hmacHex key T cfg.PORTAL_WEBHOOK_SECRET)) ∧
    (∀ (T : Int) (sig : String), sig ≠ "" →
      |now - T| ≤ cfg.PORTAL_WEBHOOK_TTL_SECONDS →
      sig ≠ build_signature hmacHex key T cfg.PORTAL_WEBHOOK_SECRET →
      verify_signature hmacHex cfg now key (some T) (some sig) =
        (false, "Invalid signature")) ∧
    (∀ (T : Int) (sig : String), sig ≠ "" →
      |now - T| > cfg.PORTAL_WEBHOOK_TTL_SECONDS →
      verify_signature hmacHex cfg now key (some T) (some sig) =
        (false, "Signature timestamp expired")) ∧
    (∀ (ts : Option Int) (sig : Option String),
      ts = Option.none ∨ sig = Option.none ∨ sig = some "" →
      verify_signature hmacHex cfg now key ts sig =
        (false, "Missing signature or timestamp")) := by
  refine ⟨?_, ?_, ?_, ?_⟩
  · intro T sig hT
    by_cases hs : sig = ""
    · subst hs
      simp only [verify_signature, if_neg hsec, if_pos rfl]
      constructor
      · intro h; exact absurd h (by simp)
      · intro h; exact absurd h.symm (hhex T)
    · simp only [verify_signature, if_neg hsec, if_neg hs, if_neg (not_lt.mpr hT)]
      by_cases he : build_signature hmacHex key T cfg.PORTAL_WEBHOOK_SECRET = sig
      · simp [he]
      · simp [he, Ne.symm he]
  · intro T sig hs hT hne
    simp only [verify_signature, if_neg hsec, if_neg hs, if_neg (not_lt.mpr hT)]
    simp [Ne.symm hne]
  · intro T sig hs hT
    simp only [verify_signature, if_neg hsec, if_neg hs]
    simp [hT]
  · intro ts sig h
    rcases h with h | h | h
    · subst h; simp [verify_signature, if_neg hsec]
    · subst h
      cases ts with
      | none => simp [verify_signature, if_neg hsec]
      | some T => simp [verify_signature, if_neg hsec]
    · subst h
      cases ts with
      | none => simp [verify_signature, if_neg hsec]
      | some T => simp [verify_signature, if_neg hsec]

/-- Witness for C3 at a concrete secret, key, time and signature. -/
theorem verify_signature_with_secret_witness :
    cfgDemo.PORTAL_WEBHOOK_SECRET ≠ "" ∧
    (verify_signature hmacDemo cfgDemo 1000 "dly" (some 900)
        (some (build_signature hmacDemo "dly" 900 "S")) = (true, "") ↔
      build_signature hmacDemo "dly" 900 "S" =
        build_signature hmacDemo "dly" 900 cfgDemo.PORTAL_WEBHOOK_SECRET) :=
  ⟨by decide,
   (verify_signature_with_secret hmacDemo cfgDemo 1000 "dly" (by decide)
      (fun T => by
        intro h
        have hl := congrArg String.length h
        simp [build_signature, hmacDemo, String.length_append] at hl
        exact absurd hl.1 (by decide))).1 900
      (build_signature hmacDemo "dly" 900 "S") (by decide)⟩

/-- C4: with no secret configured, `verify_signature` succeeds for every
combination of key, timestamp and signature, including absent ones. -/
theorem verify_signature_no_secret (hmacHex : String → String → String)
    (cfg : Config) (now : Int) (hsec : cfg.PORTAL_WEBHOOK_SECRET = "") :
    ∀ (key : String) (ts : Option Int) (sig : Option String),
      verify_signature hmacHex cfg now key ts sig = (true, "") := by
  intro key ts sig
  simp [verify_signature, hsec]

/-- Witness for C4: secret-less config accepts an absent signature. -/
theorem verify_signature_no_secret_witness :
    verify_signature hmacDemo
      { PORTAL_WEBHOOK_SECRET := "", PORTAL_WEBHOOK_TTL_SECONDS := 300,
        PORTAL_DEDUP_WINDOW_SECONDS := 60 } 1000 "dly" Option.none Option.none =
      (true, "") :=
  verify_signature_no_secret hmacDemo
    { PORTAL_WEBHOOK_SECRET := "", PORTAL_WEBHOOK_TTL_SECONDS := 300,
      PORTAL_DEDUP_WINDOW_SECONDS := 60 } 1000 rfl "dly" Option.none Option.none

/-! ### C5: key-syntax validation -/

/-- C5 (code bug): the key `"INVALID"` consists of characters outside
the lowercase alphanumeric set, yet `validate_portal_id` accepts it —
`portal_id.lower()` is applied before the character check — and the
webhook path consequently runs signature verification on it (the
request dies at the 401 signature check, not the 400 syntax check),
contradicting the documented 2-24-lowercase-alphanumeric format, the
handler's own error message, and the test suite's assertion that
`"INVALID"` is invalid. -/
theorem validate_portal_id_accepts_uppercase :
    validate_portal_id "INVALID" = true ∧
    ("INVALID".toList.all (fun c => valid_chars.contains c)) = false ∧
    portal_webhook_auth hmacDemo cfgDemo 1000 []
      (some { portal_id := some "INVALID", timestamp := Option.none,
              signature := Option.none }) =
      AuthResult.unauthorized "Missing signature or timestamp" := by
  decide

/-! ### Facts about `enqueue_job` -/

/-- `enqueue_job` either takes the dedup branch (state untouched) or is
exactly the accept branch. -/
theorem enqueue_job_cases (cfg : Config) (now : Int)
    (nowIso fresh_id portal_id action : String) (payload : Dict) (s : ServerState) :
    (enqueue_job cfg now nowIso fresh_id portal_id action payload s).2 = s ∨
    enqueue_job cfg now nowIso fresh_id portal_id action payload s =
      enqueue_new now nowIso fresh_id portal_id action payload s := by
  unfold enqueue_job
  match h : alookup s.portal_last_job portal_id with
  | Option.none => exact Or.inr rfl
  | some e =>
      by_cases hw : now - e.enqueued_at ≤ cfg.PORTAL_DEDUP_WINDOW_SECONDS
      · simp [hw]
      · simp [hw]

/-- A call that returns a `queued` record took the accept branch. -/
theorem enqueue_job_accepted (cfg : Config) (now : Int)
    (nowIso fresh_id portal_id action : String) (payload : Dict) (s : ServerState)
    (h : (enqueue_job cfg now nowIso fresh_id portal_id action payload s).1.status =
      JobStatus.queued) :
    enqueue_job cfg now nowIso fresh_id portal_id action payload s =
      enqueue_new now nowIso fresh_id portal_id action payload s := by
  unfold enqueue_job at h ⊢
  match hl : alookup s.portal_last_job portal_id with
  | Option.none => rfl
  | some e =>
      by_cases hw : now - e.enqueued_at ≤ cfg.PORTAL_DEDUP_WINDOW_SECONDS
      · rw [hl] at h
        simp [hw] at h
      · simp [hw]

/-- The components of the accept branch. -/
theorem enqueue_new_spec (now : Int) (nowIso fresh_id portal_id action : String)
    (payload : Dict) (s : ServerState) :
    (enqueue_new now nowIso fresh_id portal_id action payload s).1 =
      { job_id := fresh_id, status := JobStatus.queued, portal_id := portal_id,
        action := action, created_at := some nowIso, updated_at := some nowIso } ∧
    (enqueue_new now nowIso fresh_id portal_id action payload s).2.job_queue =
      s.job_queue ++
        [{ job_id := fresh_id, portal_id := portal_id, action := action,
           payload := payload, created_at := now }] ∧
    (enqueue_new now nowIso fresh_id portal_id action payload s).2.job_status =
      ainsert s.job_status fresh_id
        { job_id := fresh_id, status := JobStatus.queued, portal_id := portal_id,
          action := action, created_at := some nowIso, updated_at := some nowIso } ∧
    (enqueue_new now nowIso fresh_id portal_id action payload s).2.portal_last_job =
      ainsert s.portal_last_job portal_id
        { job_id := fresh_id, enqueued_at := now } :=
  ⟨rfl, rfl, rfl, rfl⟩

/-! ### C2: dedup-window behaviour of consecutive dispatches -/

/-- C2: if a first call for a key is accepted at time `t1`, any second
call for the same key at time `t2` with `t2 - t1` at most the dedup
window returns the same `job_id` with status `deduped` and leaves the
state unchanged (so a deduped reply does not refresh the window); and a
call at a time more than the window after every recorded acceptance for
the key creates a fresh job, returning its own new `job_id` as `queued`. -/
theorem enqueue_job_dedup_window (cfg : Config) (s : ServerState)
    (t1 t2 : Int) (iso1 iso2 id1 id2 key act1 act2 : String) (p1 p2 : Dict) :
    ((enqueue_job cfg t1 iso1 id1 key act1 p1 s).1.status = JobStatus.queued →
      t2 - t1 ≤ cfg.PORTAL_DEDUP_WINDOW_SECONDS →
      (enqueue_job cfg t2 iso2 id2 key act2 p2
          (enqueue_job cfg t1 iso1 id1 key act1 p1 s).2).1.job_id =
        (enqueue_job cfg t1 iso1 id1 key act1 p1 s).1.job_id ∧
      (enqueue_job cfg t2 iso2 id2 key act2 p2
          (enqueue_job cfg t1 iso1 id1 key act1 p1 s).2).1.status =
        JobStatus.deduped ∧
      (enqueue_job cfg t2 iso2 id2 key act2 p2
          (enqueue_job cfg t1 iso1 id1 key act1 p1 s).2).2 =
        (enqueue_job cfg t1 iso1 id1 key act1 p1 s).2) ∧
    ((∀ e, alookup s.portal_last_job key = some e →
        t2 - e.enqueued_at > cfg.PORTAL_DEDUP_WINDOW_SECONDS) →
      (enqueue_job cfg t2 iso2 id2 key act2 p2 s).1.job_id = id2 ∧
      (enqueue_job cfg t2 iso2 id2 key act2 p2 s).1.status = JobStatus.queued) := by
  constructor
  · intro hacc hwin
    have he := enqueue_job_accepted cfg t1 iso1 id1 key act1 p1 s hacc
    rw [he]
    have hidx : alookup
        (enqueue_new t1 iso1 id1 key act1 p1 s).2.portal_last_job key =
        some { job_id := id1, enqueued_at := t1 } := by
      rw [(enqueue_new_spec t1 iso1 id1 key act1 p1 s).2.2.2]
      exact alookup_ainsert_same _ _ _
    unfold enqueue_job
    rw [hidx]
    simp [hwin, enqueue_new]
  · intro hmiss
    unfold enqueue_job
    match hl : alookup s.portal_last_job key with
    | Option.none => exact ⟨rfl, rfl⟩
    | some e =>
        simp [not_le.mpr (hmiss e hl), enqueue_new]

/-- Witness for C2, the spec's scenario: window 60s, triggers at t=0,
t=10, t=70 for key "dly" yield Accepted J1, Deduped J1, Accepted J2 with
J2 ≠ J1. -/
theorem enqueue_job_dedup_window_witness :
    ((enqueue_job cfgDemo 0 "t0" "j1" "dly" "open_daily" [] ServerState.init).1.status =
        JobStatus.queued ∧
      (enqueue_job cfgDemo 0 "t0" "j1" "dly" "open_daily" [] ServerState.init).1.job_id =
        "j1") ∧
    ((enqueue_job cfgDemo 10 "t10" "j2" "dly" "open_daily" []
        (enqueue_job cfgDemo 0 "t0" "j1" "dly" "open_daily" [] ServerState.init).2).1.job_id =
      (enqueue_job cfgDemo 0 "t0" "j1" "dly" "open_daily" [] ServerState.init).1.job_id ∧
     (enqueue_job cfgDemo 10 "t10" "j2" "dly" "open_daily" []
        (enqueue_job cfgDemo 0 "t0" "j1" "dly" "open_daily" [] ServerState.init).2).1.status =
      JobStatus.deduped ∧
     (enqueue_job cfgDemo 10 "t10" "j2" "dly" "open_daily" []
        (enqueue_job cfgDemo 0 "t0" "j1" "dly" "open_daily" [] ServerState.init).2).2 =
      (enqueue_job cfgDemo 0 "t0" "j1" "dly" "open_daily" [] ServerState.init).2) ∧
    ((enqueue_job cfgDemo 70 "t70" "j2" "dly" "open_daily" []
        (enqueue_job cfgDemo 0 "t0" "j1" "dly" "open_daily" [] ServerState.init).2).1.job_id =
      "j2" ∧
     (enqueue_job cfgDemo 70 "t70" "j2" "dly" "open_daily" []
        (enqueue_job cfgDemo 0 "t0" "j1" "dly" "open_daily" [] ServerState.init).2).1.status =
      JobStatus.queued ∧
     ("j2" : String) ≠ "j1") :=
  ⟨⟨by decide, by decide⟩,
   (enqueue_job_dedup_window cfgDemo ServerState.init 0 10 "t0" "t10" "j1" "j2"
      "dly" "open_daily" "open_daily" [] []).1 (by decide) (by decide),
   ⟨((enqueue_job_dedup_window cfgDemo
        (enqueue_job cfgDemo 0 "t0" "j1" "dly" "open_daily" [] ServerState.init).2
        0 70 "t0" "t70" "j1" "j2" "dly" "open_daily" "open_daily" [] []).2
      (by decide)).1,
    ((enqueue_job_dedup_window cfgDemo
        (enqueue_job cfgDemo 0 "t0" "j1" "dly" "open_daily" [] ServerState.init).2
        0 70 "t0" "t70" "j1" "j2" "dly" "open_daily" "open_daily" [] []).2
      (by decide)).2,
    by decide⟩⟩

/-! ### C8: the shape of the deduped reply -/

/-- The record stored for job J1 in the C8 counterexample state. -/
def origRecordC8 : JobStatusRecord :=
  { job_id := "j1", status := JobStatus.queued, portal_id := "dly",
    action := "open_daily", created_at := some "2024-01-01T00:00:00+00:00",
    updated_at := some "2024-01-01T00:00:00+00:00" }

/-- A state holding J1's record and a dedup entry for key "dly". -/
def stateC8 : ServerState :=
  { job_queue := [], job_status := [("j1", origRecordC8)],
    portal_last_job := [("dly", { job_id := "j1", enqueued_at := 0 })] }

/-- C8 counterexample: on a dedup hit the reply is not the stored record
of the original job tagged `deduped` — the stored record's `created_at`
(and `updated_at`) are absent from the reply, which carries a `message`
instead. -/
theorem enqueue_job_dedup_reply_differs_from_record :
    ¬((enqueue_job cfgDemo 10 "t10" "j2" "dly" "open_daily" [] stateC8).1 =
      { origRecordC8 with status := JobStatus.deduped }) := by
  decide

/-- C8 (amended): on a dedup hit, `enqueue_job` returns a freshly built
reply holding only the original job's id tagged `deduped`, the dispatch
key, the caller-supplied action and a duplicate-request message — it
does not fetch the stored record or copy its fields — and the state is
unchanged, so the stored record keeps its real status. -/
theorem enqueue_job_dedup_reply_is_fresh (cfg : Config) (now : Int)
    (nowIso fresh_id key act : String) (payload : Dict) (s : ServerState)
    (e : LastJob) (he : alookup s.portal_last_job key = some e)
    (hwin : now - e.enqueued_at ≤ cfg.PORTAL_DEDUP_WINDOW_SECONDS) :
    enqueue_job cfg now nowIso fresh_id key act payload s =
      ({ job_id := e.job_id, status := JobStatus.deduped, portal_id := key,
         action := act, message := some "Duplicate request ignored" }, s) := by
  unfold enqueue_job
  rw [he]
  simp [hwin]

/-- Witness for the amended C8 on the counterexample state. -/
theorem enqueue_job_dedup_reply_is_fresh_witness :
    enqueue_job cfgDemo 10 "t10" "j2" "dly" "other_action" [] stateC8 =
      ({ job_id := "j1", status := JobStatus.deduped, portal_id := "dly",
         action := "other_action",
         message := some "Duplicate request ignored" }, stateC8) :=
  enqueue_job_dedup_reply_is_fresh cfgDemo 10 "t10" "j2" "dly" "other_action" []
    stateC8 { job_id := "j1", enqueued_at := 0 } rfl (by decide)

/-! ### C7, C9: the worker's finish writes -/

/-- C7: when the executor raises, the worker's except-branch write marks
the job `failed`, stores the exception text in `error`, refreshes
`updated_at` and keeps every other field; and for every possible
executor outcome the finish write is defined and leaves the record in
`succeeded` or `failed`, never `in_progress` — the worker's loop always
reaches its `finally` and continues. -/
theorem worker_finish_on_exception (s : ServerState) (job_id : String)
    (r : JobStatusRecord) (nowIso msg : String)
    (hr : alookup s.job_status job_id = some r) :
    (alookup (worker_finish nowIso job_id (ExecOutcome.exc msg) s).job_status job_id =
      some { r with status := JobStatus.failed, error := some msg,
                    updated_at := some nowIso }) ∧
    (∀ outcome : ExecOutcome, ∃ r',
      alookup (worker_finish nowIso job_id outcome s).job_status job_id = some r' ∧
      r'.status ≠ JobStatus.in_progress ∧
      (r'.status = JobStatus.succeeded ∨ r'.status = JobStatus.failed)) := by
  constructor
  · simp [worker_finish, alookup_aupdate_same, hr]
  · intro outcome
    cases outcome with
    | ok result =>
        by_cases hs : result.truthyAt "success"
        · refine ⟨{ r with
              status := JobStatus.succeeded,
              result := some result,
              updated_at := some nowIso }, ?_, by simp, Or.inl rfl⟩
          simp [worker_finish, alookup_aupdate_same, hr, hs]
        · refine ⟨{ r with
              status := JobStatus.failed,
              result := some result,
              updated_at := some nowIso }, ?_, by simp, Or.inr rfl⟩
          simp [worker_finish, alookup_aupdate_same, hr, hs]
    | exc m =>
        refine ⟨{ r with
            status := JobStatus.failed,
            error := some m,
            updated_at := some nowIso }, ?_, by simp, Or.inr rfl⟩
        simp [worker_finish, alookup_aupdate_same, hr]

/-- Witness for C7 at a concrete store and exception. -/
theorem worker_finish_on_exception_witness :
    alookup (worker_finish "t1" "j1" (ExecOutcome.exc "boom")
        { job_queue := [],
          job_status := [("j1", { origRecordC8 with status := JobStatus.in_progress })],
          portal_last_job := [] }).job_status "j1" =
      some { origRecordC8 with status := JobStatus.failed, error := some "boom",
                               updated_at := some "t1" } :=
  (worker_finish_on_exception
    { job_queue := [],
      job_status := [("j1", { origRecordC8 with status := JobStatus.in_progress })],
      portal_last_job := [] }
    "j1" { origRecordC8 with status := JobStatus.in_progress } "t1" "boom" rfl).1

/-- C9: when the executor returns normally with a falsy (or absent)
`success` field, the worker marks the record `failed`, stores the
returned dict under `result`, refreshes `updated_at` and leaves `error`
untouched — so a `failed` record carries an `error` field only when the
executor raised. -/
theorem worker_finish_falsy_success (s : ServerState) (job_id : String)
    (r : JobStatusRecord) (nowIso : String) (result : Dict)
    (hr : alookup s.job_status job_id = some r)
    (hfalse : result.truthyAt "success" = false) :
    alookup (worker_finish nowIso job_id (ExecOutcome.ok result) s).job_status job_id =
      some { r with status := JobStatus.failed, result := some result,
                    updated_at := some nowIso } := by
  simp [worker_finish, hfalse, alookup_aupdate_same, hr]

/-- Witness for C9: a returned dict with `success: False` yields a
`failed` record with the result stored and no `error` field. -/
theorem worker_finish_falsy_success_witness :
    alookup (worker_finish "t1" "j1"
        (ExecOutcome.ok [("success", PyVal.bool false)])
        { job_queue := [],
          job_status := [("j1", { origRecordC8 with status := JobStatus.in_progress })],
          portal_last_job := [] }).job_status "j1" =
      some { origRecordC8 with status := JobStatus.failed,
                               result := some [("success", PyVal.bool false)],
                               updated_at := some "t1" } :=
  worker_finish_falsy_success
    { job_queue := [],
      job_status := [("j1", { origRecordC8 with status := JobStatus.in_progress })],
      portal_last_job := [] }
    "j1" { origRecordC8 with status := JobStatus.in_progress } "t1"
    [("success", PyVal.bool false)] rfl (by decide)

/-! ### C6: the job-status state machine -/

/-- Every queued job has a stored record, still `queued`. -/
def queuedJobsOk (s : Sys) : Prop :=
  ∀ job ∈ s.state.job_queue, ∃ r,
    alookup s.state.job_status job.job_id = some r ∧ r.status = JobStatus.queued

/-- Every claimed job has a stored record, marked `in_progress`. -/
def inflightJobsOk (s : Sys) : Prop :=
  ∀ job ∈ s.inflight, ∃ r,
    alookup s.state.job_status job.job_id = some r ∧
    r.status = JobStatus.in_progress

/-- No job id appears twice among queued and claimed jobs. -/
def jobIdsNodup (s : Sys) : Prop :=
  ((s.state.job_queue ++ s.inflight).map PortalJob.job_id).Nodup

/-- The store never holds a `deduped` status. -/
def storeNoDeduped (s : Sys) : Prop :=
  ∀ id r, alookup s.state.job_status id = some r → r.status ≠ JobStatus.deduped

/-- The inductive invariant of the dispatcher/worker system. -/
def SysInv (s : Sys) : Prop :=
  queuedJobsOk s ∧ inflightJobsOk s ∧ jobIdsNodup s ∧ storeNoDeduped s

theorem sysInv_init : SysInv Sys.init := by
  refine ⟨?_, ?_, ?_, ?_⟩
  · intro job hj; cases hj
  · intro job hj; cases hj
  · simp [jobIdsNodup, Sys.init, ServerState.init]
  · intro id r hr; cases hr

/-- `worker_finish` only rewrites the job's record (to a terminal
status), leaving queue and dedup index alone. -/
theorem worker_finish_write (nowIso : String) (job_id : String)
    (outcome : ExecOutcome) (st : ServerState) :
    ∃ f : JobStatusRecord → JobStatusRecord,
      worker_finish nowIso job_id outcome st =
        { st with job_status := aupdate st.job_status job_id f } ∧
      ∀ r, (f r).status = JobStatus.succeeded ∨ (f r).status = JobStatus.failed := by
  cases outcome with
  | ok result =>
      by_cases hs : result.truthyAt "success"
      · refine ⟨fun r => { r with
            status := JobStatus.succeeded,
            result := some result,
            updated_at := some nowIso }, ?_, fun r => Or.inl rfl⟩
        simp [worker_finish, hs]
      · refine ⟨fun r => { r with
            status := JobStatus.failed,
            result := some result,
            updated_at := some nowIso }, ?_, fun r => Or.inr rfl⟩
        simp [worker_finish, hs]
  | exc m =>
      refine ⟨fun r => { r with
          status := JobStatus.failed,
          error := some m,
          updated_at := some nowIso }, ?_, fun r => Or.inr rfl⟩
      simp [worker_finish]

theorem sysInv_preserved {cfg : Config} {s s' : Sys} (hinv : SysInv s)
    (hstep : SysStep cfg s s') : SysInv s' := by
  obtain ⟨hq, hi, hn, hd⟩ := hinv
  cases hstep with
  | enqueue now nowIso fresh_id portal_id action payload s hfresh =>
      rcases enqueue_job_cases cfg now nowIso fresh_id portal_id action payload
        s.state with hcase | hcase
      · rw [hcase]
        exact ⟨hq, hi, hn, hd⟩
      · rw [hcase]
        obtain ⟨-, hque, hst, -⟩ :=
          enqueue_new_spec now nowIso fresh_id portal_id action payload s.state
        have hne_of_rec : ∀ (j : PortalJob) (r : JobStatusRecord),
            alookup s.state.job_status j.job_id = some r →
            j.job_id ≠ fresh_id := by
          intro j r hr h
          rw [h, hfresh] at hr
          cases hr
        refine ⟨?_, ?_, ?_, ?_⟩
        · intro job hj
          rw [hque] at hj
          rcases List.mem_append.mp hj with hj | hj
          · obtain ⟨r, hr, hqd⟩ := hq job hj
            refine ⟨r, ?_, hqd⟩
            rw [hst, alookup_ainsert_other _ _ _ _ (hne_of_rec job r hr)]
            exact hr
          · have hjob :
                job = { job_id := fresh_id, portal_id := portal_id,
                        action := action, payload := payload,
                        created_at := now } := by
              simpa using hj
            subst hjob
            refine ⟨{ job_id := fresh_id, status := JobStatus.queued,
                      portal_id := portal_id, action := action,
                      created_at := some nowIso,
                      updated_at := some nowIso }, ?_, rfl⟩
            rw [hst]
            exact alookup_ainsert_same _ _ _
        · intro job hj
          obtain ⟨r, hr, hip⟩ := hi job hj
          refine ⟨r, ?_, hip⟩
          rw [hst, alookup_ainsert_other _ _ _ _ (hne_of_rec job r hr)]
          exact hr
        · show (((enqueue_new now nowIso fresh_id portal_id action payload
            s.state).2.job_queue ++ s.inflight).map PortalJob.job_id).Nodup
          rw [hque]
          have hperm : List.Perm
              (((s.state.job_queue ++
                  [({ job_id := fresh_id, portal_id := portal_id, action := action,
                      payload := payload, created_at := now } : PortalJob)]) ++
                  s.inflight).map PortalJob.job_id)
              (fresh_id ::
                ((s.state.job_queue ++ s.inflight).map PortalJob.job_id)) := by
            have hap : (s.state.job_queue ++
                [({ job_id := fresh_id, portal_id := portal_id, action := action,
                    payload := payload, created_at := now } : PortalJob)]) ++
                  s.inflight =
                s.state.job_queue ++
                  (({ job_id := fresh_id, portal_id := portal_id, action := action,
                      payload := payload, created_at := now } : PortalJob) ::
                    s.inflight) := by
              simp
            rw [hap]
            exact List.Perm.map PortalJob.job_id List.perm_middle
          rw [List.Perm.nodup_iff hperm]
          have hn0 : ((s.state.job_queue ++ s.inflight).map PortalJob.job_id).Nodup := hn
          refine List.nodup_cons.mpr ⟨?_, hn0⟩
          intro hmem
          obtain ⟨j, hj, hid⟩ := List.mem_map.mp hmem
          rcases List.mem_append.mp hj with hj | hj
          · obtain ⟨r, hr, -⟩ := hq j hj
            exact hne_of_rec j r hr hid
          · obtain ⟨r, hr, -⟩ := hi j hj
            exact hne_of_rec j r hr hid
        · intro id r hr
          rw [hst] at hr
          rcases alookup_ainsert_cases _ _ _ _ _ hr with ⟨-, hrv⟩ | hr'
          · subst hrv
            simp
          · exact hd id r hr'
  | claim nowIso job rest s hcq =>
      have hjob_mem : job ∈ s.state.job_queue := by
        rw [hcq]; exact List.mem_cons_self _ _
      obtain ⟨rq, hrq, hrq_qd⟩ := hq job hjob_mem
      have hn' : (job.job_id :: ((rest ++ s.inflight).map PortalJob.job_id)).Nodup := by
        have heq : (s.state.job_queue ++ s.inflight).map PortalJob.job_id =
            job.job_id :: ((rest ++ s.inflight).map PortalJob.job_id) := by
          rw [hcq]; simp
        have hn0 : ((s.state.job_queue ++ s.inflight).map PortalJob.job_id).Nodup := hn
        rw [heq] at hn0
        exact hn0
      have hnotmem : job.job_id ∉ (rest ++ s.inflight).map PortalJob.job_id :=
        (List.nodup_cons.mp hn').1
      refine ⟨?_, ?_, ?_, ?_⟩
      · intro j hj
        have hjm : j ∈ rest := hj
        obtain ⟨r, hr, hqd⟩ := hq j (by rw [hcq]; exact List.mem_cons_of_mem _ hjm)
        have hne : j.job_id ≠ job.job_id := by
          intro h
          exact hnotmem (h ▸ List.mem_map.mpr
            ⟨j, List.mem_append.mpr (Or.inl hjm), rfl⟩)
        refine ⟨r, ?_, hqd⟩
        show alookup (aupdate s.state.job_status job.job_id _) j.job_id = some r
        rw [alookup_aupdate_other _ _ _ _ hne]
        exact hr
      · intro j hj
        rcases List.mem_cons.mp hj with hj | hj
        · subst hj
          refine ⟨{ rq with
                    status := JobStatus.in_progress,
                    updated_at := some nowIso }, ?_, rfl⟩
          show alookup (aupdate s.state.job_status j.job_id _) j.job_id = _
          rw [alookup_aupdate_same, hrq]
          rfl
        · obtain ⟨r, hr, hip⟩ := hi j hj
          have hne : j.job_id ≠ job.job_id := by
            intro h
            exact hnotmem (h ▸ List.mem_map.mpr
              ⟨j, List.mem_append.mpr (Or.inr hj), rfl⟩)
          refine ⟨r, ?_, hip⟩
          show alookup (aupdate s.state.job_status job.job_id _) j.job_id = some r
          rw [alookup_aupdate_other _ _ _ _ hne]
          exact hr
      · show ((rest ++ job :: s.inflight).map PortalJob.job_id).Nodup
        have hperm : List.Perm
            ((rest ++ job :: s.inflight).map PortalJob.job_id)
            (job.job_id :: ((rest ++ s.inflight).map PortalJob.job_id)) :=
          List.Perm.map PortalJob.job_id List.perm_middle
        rw [List.Perm.nodup_iff hperm]
        exact hn'
      · intro id r hr
        rcases alookup_aupdate_cases _ _ _ _ _ hr with ⟨r₀, -, hrv⟩ | hr'
        · subst hrv
          simp
        · exact hd id r hr'
  | finish nowIso job outcome l1 l2 s hcin =>
      obtain ⟨f, hwf, hterm⟩ := worker_finish_write nowIso job.job_id outcome s.state
      have hjob_mem : job ∈ s.inflight := by
        rw [hcin]
        exact List.mem_append_right _ (List.mem_cons_self _ _)
      have hsplit : (s.state.job_queue ++ s.inflight).map PortalJob.job_id =
          ((s.state.job_queue ++ l1) ++ job :: l2).map PortalJob.job_id := by
        rw [hcin]; simp
      have hperm : List.Perm
          (((s.state.job_queue ++ l1) ++ job :: l2).map PortalJob.job_id)
          (job.job_id :: (((s.state.job_queue ++ l1) ++ l2).map PortalJob.job_id)) :=
        List.Perm.map PortalJob.job_id List.perm_middle
      have hn'' : (job.job_id ::
          (((s.state.job_queue ++ l1) ++ l2).map PortalJob.job_id)).Nodup := by
        have hn0 : ((s.state.job_queue ++ s.inflight).map PortalJob.job_id).Nodup := hn
        rw [hsplit] at hn0
        rw [List.Perm.nodup_iff hperm] at hn0
        exact hn0
      have hnotmem : job.job_id ∉
          ((s.state.job_queue ++ l1) ++ l2).map PortalJob.job_id :=
        (List.nodup_cons.mp hn'').1
      have hne_of_mem : ∀ j : PortalJob,
          j ∈ (s.state.job_queue ++ l1) ++ l2 → j.job_id ≠ job.job_id := by
        intro j hj h
        exact hnotmem (h ▸ List.mem_map.mpr ⟨j, hj, rfl⟩)
      refine ⟨?_, ?_, ?_, ?_⟩
      · intro j hj
        have hjq : j ∈ s.state.job_queue := by
          rw [hwf] at hj
          exact hj
        obtain ⟨r, hr, hqd⟩ := hq j hjq
        have hne : j.job_id ≠ job.job_id :=
          hne_of_mem j (List.mem_append.mpr (Or.inl (List.mem_append.mpr (Or.inl hjq))))
        refine ⟨r, ?_, hqd⟩
        rw [hwf]
        show alookup (aupdate s.state.job_status job.job_id f) j.job_id = some r
        rw [alookup_aupdate_other _ _ _ _ hne]
        exact hr
      · intro j hj
        have hjin : j ∈ s.inflight := by
          rw [hcin]
          rcases List.mem_append.mp hj with hj' | hj'
          · exact List.mem_append_left _ hj'
          · exact List.mem_append_right _ (List.mem_cons_of_mem _ hj')
        obtain ⟨r, hr, hip⟩ := hi j hjin
        have hne : j.job_id ≠ job.job_id := by
          apply hne_of_mem j
          rcases List.mem_append.mp hj with hj' | hj'
          · exact List.mem_append.mpr
              (Or.inl (List.mem_append.mpr (Or.inr hj')))
          · exact List.mem_append.mpr (Or.inr hj')
        refine ⟨r, ?_, hip⟩
        rw [hwf]
        show alookup (aupdate s.state.job_status job.job_id f) j.job_id = some r
        rw [alookup_aupdate_other _ _ _ _ hne]
        exact hr
      · show (((worker_finish nowIso job.job_id outcome s.state).job_queue ++
          (l1 ++ l2)).map PortalJob.job_id).Nodup
        rw [hwf]
        have : (s.state.job_queue ++ (l1 ++ l2)).map PortalJob.job_id =
            ((s.state.job_queue ++ l1) ++ l2).map PortalJob.job_id := by
          simp
        show ((s.state.job_queue ++ (l1 ++ l2)).map PortalJob.job_id).Nodup
        rw [this]
        exact (List.nodup_cons.mp hn'').2
      · intro id r hr
        rw [hwf] at hr
        rcases alookup_aupdate_cases _ _ _ _ _ hr with ⟨r₀, -, hrv⟩ | hr'
        · subst hrv
          rcases hterm r₀ with h | h <;> simp [h]
        · exact hd id r hr'

theorem sysReach_inv {cfg : Config} {s : Sys} (h : SysReach cfg s) : SysInv s := by
  induction h with
  | refl => exact sysInv_init
  | tail hsteps hstep ih => exact sysInv_preserved ih hstep

theorem sysInv_step_statusEvolutionOk {cfg : Config} {s s' : Sys}
    (hinv : SysInv s) (hstep : SysStep cfg s s') : StatusEvolutionOk s s' := by
  obtain ⟨hq, hi, hn, hd⟩ := hinv
  have hd' : ∀ jid r, alookup s'.state.job_status jid = some r →
      r.status ≠ JobStatus.deduped :=
    (sysInv_preserved ⟨hq, hi, hn, hd⟩ hstep).2.2.2
  refine ⟨?_, ?_, hd'⟩
  · cases hstep with
    | enqueue now nowIso fresh_id portal_id action payload s hfresh =>
        rcases enqueue_job_cases cfg now nowIso fresh_id portal_id action payload
          s.state with hcase | hcase
        · intro jid
          refine Or.inl ?_
          show (alookup s.state.job_status jid).map JobStatusRecord.status =
            (alookup (enqueue_job cfg now nowIso fresh_id portal_id action
              payload s.state).2.job_status jid).map JobStatusRecord.status
          rw [hcase]
        · obtain ⟨-, -, hst, -⟩ :=
            enqueue_new_spec now nowIso fresh_id portal_id action payload s.state
          intro jid
          by_cases hid : jid = fresh_id
          · rw [hid]
            refine Or.inr (Or.inl ⟨?_, ?_⟩)
            · show (alookup s.state.job_status fresh_id).map JobStatusRecord.status =
                Option.none
              rw [hfresh]
              rfl
            · show (alookup (enqueue_job cfg now nowIso fresh_id portal_id action
                payload s.state).2.job_status fresh_id).map JobStatusRecord.status =
                some JobStatus.queued
              rw [hcase, hst, alookup_ainsert_same]
              rfl
          · refine Or.inl ?_
            show (alookup s.state.job_status jid).map JobStatusRecord.status =
              (alookup (enqueue_job cfg now nowIso fresh_id portal_id action
                payload s.state).2.job_status jid).map JobStatusRecord.status
            rw [hcase, hst, alookup_ainsert_other _ _ _ _ hid]
    | claim nowIso job rest s hcq =>
        have hjob_mem : job ∈ s.state.job_queue := by
          rw [hcq]; exact List.mem_cons_self _ _
        obtain ⟨rq, hrq, hrq_qd⟩ := hq job hjob_mem
        intro jid
        by_cases hid : jid = job.job_id
        · rw [hid]
          refine Or.inr (Or.inr (Or.inl ⟨?_, ?_⟩))
          · show (alookup s.state.job_status job.job_id).map JobStatusRecord.status =
              some JobStatus.queued
            rw [hrq, Option.map_some', hrq_qd]
          · show (alookup (aupdate s.state.job_status job.job_id _) job.job_id).map
              JobStatusRecord.status = some JobStatus.in_progress
            rw [alookup_aupdate_same, hrq]
            rfl
        · refine Or.inl ?_
          show (alookup s.state.job_status jid).map JobStatusRecord.status =
            (alookup (aupdate s.state.job_status job.job_id _) jid).map
              JobStatusRecord.status
          rw [alookup_aupdate_other _ _ _ _ hid]
    | finish nowIso job outcome l1 l2 s hcin =>
        obtain ⟨f, hwf, hterm⟩ := worker_finish_write nowIso job.job_id outcome s.state
        have hjob_mem : job ∈ s.inflight := by
          rw [hcin]
          exact List.mem_append_right _ (List.mem_cons_self _ _)
        obtain ⟨rp, hrp, hrp_ip⟩ := hi job hjob_mem
        intro jid
        by_cases hid : jid = job.job_id
        · rw [hid]
          refine Or.inr (Or.inr (Or.inr ⟨?_, ?_⟩))
          · show (alookup s.state.job_status job.job_id).map JobStatusRecord.status =
              some JobStatus.in_progress
            rw [hrp, Option.map_some', hrp_ip]
          · rw [show (worker_finish nowIso job.job_id outcome s.state) =
              { s.state with job_status := aupdate s.state.job_status job.job_id f }
              from hwf]
            show (alookup (aupdate s.state.job_status job.job_id f) job.job_id).map
              JobStatusRecord.status = some JobStatus.succeeded ∨
              (alookup (aupdate s.state.job_status job.job_id f) job.job_id).map
              JobStatusRecord.status = some JobStatus.failed
            rw [alookup_aupdate_same, hrp]
            rcases hterm rp with h | h
            · exact Or.inl (by simp [h])
            · exact Or.inr (by simp [h])
        · refine Or.inl ?_
          rw [show (worker_finish nowIso job.job_id outcome s.state) =
            { s.state with job_status := aupdate s.state.job_status job.job_id f }
            from hwf]
          show (alookup s.state.job_status jid).map JobStatusRecord.status =
            (alookup (aupdate s.state.job_status job.job_id f) jid).map
              JobStatusRecord.status
          rw [alookup_aupdate_other _ _ _ _ hid]
  · cases hstep with
    | enqueue now nowIso fresh_id portal_id action payload s hfresh =>
        rcases enqueue_job_cases cfg now nowIso fresh_id portal_id action payload
          s.state with hcase | hcase
        · intro jid r hr hterm'
          show alookup (enqueue_job cfg now nowIso fresh_id portal_id action
            payload s.state).2.job_status jid = some r
          rw [hcase]
          exact hr
        · obtain ⟨-, -, hst, -⟩ :=
            enqueue_new_spec now nowIso fresh_id portal_id action payload s.state
          intro jid r hr hterm'
          have hid : jid ≠ fresh_id := by
            intro h
            rw [h, hfresh] at hr
            cases hr
          show alookup (enqueue_job cfg now nowIso fresh_id portal_id action
            payload s.state).2.job_status jid = some r
          rw [hcase, hst, alookup_ainsert_other _ _ _ _ hid]
          exact hr
    | claim nowIso job rest s hcq =>
        have hjob_mem : job ∈ s.state.job_queue := by
          rw [hcq]; exact List.mem_cons_self _ _
        obtain ⟨rq, hrq, hrq_qd⟩ := hq job hjob_mem
        intro jid r hr hterm'
        have hterm2 : r.status = JobStatus.succeeded ∨
            r.status = JobStatus.failed := hterm'
        have hid : jid ≠ job.job_id := by
          intro h
          rw [h, hrq] at hr
          cases hr
          rw [hrq_qd] at hterm2
          rcases hterm2 with h' | h' <;> cases h'
        show alookup (aupdate s.state.job_status job.job_id _) jid = some r
        rw [alookup_aupdate_other _ _ _ _ hid]
        exact hr
    | finish nowIso job outcome l1 l2 s hcin =>
        obtain ⟨f, hwf, hterm⟩ := worker_finish_write nowIso job.job_id outcome s.state
        have hjob_mem : job ∈ s.inflight := by
          rw [hcin]
          exact List.mem_append_right _ (List.mem_cons_self _ _)
        obtain ⟨rp, hrp, hrp_ip⟩ := hi job hjob_mem
        intro jid r hr hterm'
        have hterm2 : r.status = JobStatus.succeeded ∨
            r.status = JobStatus.failed := hterm'
        have hid : jid ≠ job.job_id := by
          intro h
          rw [h, hrp] at hr
          cases hr
          rw [hrp_ip] at hterm2
          rcases hterm2 with h' | h' <;> cases h'
        rw [show (worker_finish nowIso job.job_id outcome s.state) =
          { s.state with job_status := aupdate s.state.job_status job.job_id f }
          from hwf]
        show alookup (aupdate s.state.job_status job.job_id f) jid = some r
        rw [alookup_aupdate_other _ _ _ _ hid]
        exact hr

/-- C6: across every step of the running system, each job's stored
status only ever evolves along `queued → in_progress → {succeeded |
failed}` — a record whose status is terminal is never changed again —
and the status value `deduped` is never written into the store (it
exists only in the inline reply to a deduplicated caller). -/
theorem job_status_state_machine (cfg : Config) (s s' : Sys)
    (hreach : SysReach cfg s) (hstep : SysStep cfg s s') :
    StatusEvolutionOk s s' :=
  sysInv_step_statusEvolutionOk (sysReach_inv hreach) hstep

/-- Witness for C6: the first dispatch from the empty system. -/
theorem job_status_state_machine_witness :
    StatusEvolutionOk Sys.init
      { state := (enqueue_job cfgDemo 0 "t0" "j1" "dly" "open_daily" []
          Sys.init.state).2,
        inflight := Sys.init.inflight } :=
  job_status_state_machine cfgDemo Sys.init
    { state := (enqueue_job cfgDemo 0 "t0" "j1" "dly" "open_daily" []
        Sys.init.state).2,
      inflight := Sys.init.inflight }
    Relation.ReflTransGen.refl
    (SysStep.enqueue 0 "t0" "j1" "dly" "open_daily" [] Sys.init rfl)

/-! ### C1: mutual exclusion of the two-call interleaving -/

theorem updB_same {α : Type} (f : Bool → α) (i : Bool) (v : α) :
    updB f i v i = v := by
  simp [updB]

theorem updB_other {α : Type} (f : Bool → α) (i j : Bool) (v : α) (h : j ≠ i) :
    updB f i v j = f j := by
  simp [updB, h]

/-- The program counters a call can be at once its dedup check passed. -/
def pastCheck (p : PC) : Prop :=
  p = PC.pushQueue ∨ p = PC.insertStatus ∨ p = PC.updateIndex ∨
  p = PC.unlock ∨ p = PC.done

/-- The inductive invariant of the two-call interleaving: the lock is
held by exactly the call whose program counter sits in the critical
section; a call that decided to create is past its check; a creating
call that reached `unlock`/`done` has left a dedup entry timed at one of
the two calls' capture times; and the two calls never both decide to
create. -/
def CInv (key : String) (ctx : Bool → TaskCtx) (s : CSys) : Prop :=
  (∀ j, s.lock = some j ↔ (s.pc j).inCrit = true) ∧
  (∀ j, s.outcome j = some true → pastCheck (s.pc j)) ∧
  (∀ j, s.outcome j = some true → (s.pc j = PC.unlock ∨ s.pc j = PC.done) →
    ∃ e, alookup s.store.portal_last_job key = some e ∧
      (e.enqueued_at = (ctx true).now ∨ e.enqueued_at = (ctx false).now)) ∧
  ¬(s.outcome true = some true ∧ s.outcome false = some true)

theorem cInv_init (key : String) (ctx : Bool → TaskCtx)
    (s₀ : ServerState) : CInv key ctx (CSys.init s₀) := by
  refine ⟨?_, ?_, ?_, ?_⟩
  · intro j
    simp [CSys.init, PC.inCrit]
  · intro j hj
    simp [CSys.init] at hj
  · intro j hj
    simp [CSys.init] at hj
  · simp [CSys.init]

/-- A lock-holding statement that moves the holder's pc to another
critical-section point preserves the lock component of the invariant. -/
theorem lockInv_move {s : CSys} (i : Bool) (newpc : PC)
    (hl : s.lock = some i)
    (h1 : ∀ j, s.lock = some j ↔ (s.pc j).inCrit = true)
    (hcrit : newpc.inCrit = true) :
    ∀ j, s.lock = some j ↔ ((updB s.pc i newpc j).inCrit = true) := by
  intro j
  by_cases hij : j = i
  · subst hij
    rw [updB_same, hl]
    simp [hcrit]
  · rw [updB_other _ _ _ _ hij]
    exact h1 j

/-- A statement that moves the pc of a call within `pastCheck` preserves
the decided-calls component. -/
theorem pastCheckInv_move {s : CSys} (i : Bool) (newpc : PC)
    (h2 : ∀ j, s.outcome j = some true → pastCheck (s.pc j))
    (hin : pastCheck newpc) :
    ∀ j, s.outcome j = some true → pastCheck (updB s.pc i newpc j) := by
  intro j hj
  by_cases hij : j = i
  · subst hij
    rw [updB_same]
    exact hin
  · rw [updB_other _ _ _ _ hij]
    exact h2 j hj

theorem no_double_create {cfg : Config} {key : String} {ctx : Bool → TaskCtx}
    {s : CSys} (i : Bool)
    (hW : 0 ≤ cfg.PORTAL_DEDUP_WINDOW_SECONDS)
    (hn1 : -cfg.PORTAL_DEDUP_WINDOW_SECONDS ≤ (ctx true).now - (ctx false).now)
    (hn2 : (ctx true).now - (ctx false).now ≤ cfg.PORTAL_DEDUP_WINDOW_SECONDS)
    (h1 : ∀ j, s.lock = some j ↔ (s.pc j).inCrit = true)
    (h2 : ∀ j, s.outcome j = some true → pastCheck (s.pc j))
    (h3 : ∀ j, s.outcome j = some true →
      (s.pc j = PC.unlock ∨ s.pc j = PC.done) →
      ∃ e, alookup s.store.portal_last_job key = some e ∧
        (e.enqueued_at = (ctx true).now ∨ e.enqueued_at = (ctx false).now))
    (hl : s.lock = some i)
    (hmiss : ∀ e, alookup s.store.portal_last_job key = some e →
      (ctx i).now - e.enqueued_at > cfg.PORTAL_DEDUP_WINDOW_SECONDS)
    (j : Bool) (hji : j ≠ i) (hj : s.outcome j = some true) : False := by
  have hcrit_lock : (s.pc j).inCrit = true → False := by
    intro hcrit
    have hlj := (h1 j).mpr hcrit
    rw [hl] at hlj
    exact hji (Option.some_injective _ hlj).symm
  rcases h2 j hj with h | h | h | h | h
  · exact hcrit_lock (by rw [h]; rfl)
  · exact hcrit_lock (by rw [h]; rfl)
  · exact hcrit_lock (by rw [h]; rfl)
  · exact hcrit_lock (by rw [h]; rfl)
  · obtain ⟨e, he, htime⟩ := h3 j hj (Or.inr h)
    have hg := hmiss e he
    cases i with
    | false => rcases htime with h' | h' <;> rw [h'] at hg <;> omega
    | true => rcases htime with h' | h' <;> rw [h'] at hg <;> omega

theorem cInv_preserved {cfg : Config} {key act : String} {payload : Dict}
    {ctx : Bool → TaskCtx}
    (hW : 0 ≤ cfg.PORTAL_DEDUP_WINDOW_SECONDS)
    (hnear : |(ctx true).now - (ctx false).now| ≤ cfg.PORTAL_DEDUP_WINDOW_SECONDS)
    {s s' : CSys} (hinv : CInv key ctx s)
    (hstep : CStep cfg key act payload ctx s s') : CInv key ctx s' := by
  obtain ⟨h1, h2, h3, h4⟩ := hinv
  rcases abs_le.mp hnear with ⟨hn1, hn2⟩
  cases hstep with
  | acquire i s hl hpc =>
      refine ⟨?_, ?_, ?_, h4⟩
      · intro j
        dsimp only
        by_cases hij : j = i
        · subst hij
          rw [updB_same]
          simp [PC.inCrit]
        · rw [updB_other _ _ _ _ hij]
          have hold := h1 j
          rw [hl] at hold
          constructor
          · intro hcontra
            exact absurd (Option.some_injective _ hcontra).symm hij
          · intro hcrit
            exact absurd (hold.mpr hcrit) (by simp)
      · intro j hj
        dsimp only at hj ⊢
        by_cases hij : j = i
        · subst hij
          rcases h2 j hj with h | h | h | h | h <;> rw [hpc] at h <;> cases h
        · rw [updB_other _ _ _ _ hij]
          exact h2 j hj
      · intro j hj hpc'
        dsimp only at hj hpc' ⊢
        by_cases hij : j = i
        · subst hij
          rw [updB_same] at hpc'
          rcases hpc' with h | h <;> cases h
        · rw [updB_other _ _ _ _ hij] at hpc'
          exact h3 j hj hpc'
  | checkHit i s e hl hpc he hwin =>
      refine ⟨lockInv_move i PC.unlock hl h1 rfl, ?_, ?_, ?_⟩
      · intro j hj
        dsimp only at hj ⊢
        by_cases hij : j = i
        · subst hij
          rw [updB_same] at hj
          cases hj
        · rw [updB_other _ _ _ _ hij] at hj
          rw [updB_other _ _ _ _ hij]
          exact h2 j hj
      · intro j hj hpc'
        dsimp only at hj hpc' ⊢
        by_cases hij : j = i
        · subst hij
          rw [updB_same] at hj
          cases hj
        · rw [updB_other _ _ _ _ hij] at hj
          rw [updB_other _ _ _ _ hij] at hpc'
          exact h3 j hj hpc'
      · rintro ⟨ht, hf⟩
        dsimp only at ht hf
        cases i with
        | false =>
            rw [updB_same] at hf
            cases hf
        | true =>
            rw [updB_same] at ht
            cases ht
  | checkMiss i s hl hpc hmiss =>
      refine ⟨lockInv_move i PC.pushQueue hl h1 rfl, ?_, ?_, ?_⟩
      · intro j hj
        dsimp only at hj ⊢
        by_cases hij : j = i
        · subst hij
          rw [updB_same]
          exact Or.inl rfl
        · rw [updB_other _ _ _ _ hij] at hj
          rw [updB_other _ _ _ _ hij]
          exact h2 j hj
      · intro j hj hpc'
        dsimp only at hj hpc' ⊢
        by_cases hij : j = i
        · subst hij
          rw [updB_same] at hpc'
          rcases hpc' with h | h <;> cases h
        · rw [updB_other _ _ _ _ hij] at hpc'
          rw [updB_other _ _ _ _ hij] at hj
          exact h3 j hj hpc'
      · rintro ⟨ht, hf⟩
        dsimp only at ht hf
        cases i with
        | false =>
            rw [updB_other _ _ _ _ (by decide : (true : Bool) ≠ false)] at ht
            exact no_double_create false hW hn1 hn2 h1 h2 h3 hl hmiss true
              (by decide) ht
        | true =>
            rw [updB_other _ _ _ _ (by decide : (false : Bool) ≠ true)] at hf
            exact no_double_create true hW hn1 hn2 h1 h2 h3 hl hmiss false
              (by decide) hf
  | push i s hl hpc =>
      refine ⟨lockInv_move i PC.insertStatus hl h1 rfl,
        pastCheckInv_move i PC.insertStatus h2 (Or.inr (Or.inl rfl)), ?_, h4⟩
      intro j hj hpc'
      dsimp only at hj hpc' ⊢
      by_cases hij : j = i
      · subst hij
        rw [updB_same] at hpc'
        rcases hpc' with h | h <;> cases h
      · rw [updB_other _ _ _ _ hij] at hpc'
        exact h3 j hj hpc'
  | insertStatus i s hl hpc =>
      refine ⟨lockInv_move i PC.updateIndex hl h1 rfl,
        pastCheckInv_move i PC.updateIndex h2 (Or.inr (Or.inr (Or.inl rfl))),
        ?_, h4⟩
      intro j hj hpc'
      dsimp only at hj hpc' ⊢
      by_cases hij : j = i
      · subst hij
        rw [updB_same] at hpc'
        rcases hpc' with h | h <;> cases h
      · rw [updB_other _ _ _ _ hij] at hpc'
        exact h3 j hj hpc'
  | updateIndex i s hl hpc =>
      refine ⟨lockInv_move i PC.unlock hl h1 rfl,
        pastCheckInv_move i PC.unlock h2 (Or.inr (Or.inr (Or.inr (Or.inl rfl)))),
        ?_, h4⟩
      intro j hj hpc'
      dsimp only at hj hpc' ⊢
      refine ⟨{ job_id := (ctx i).fresh_id, enqueued_at := (ctx i).now },
        alookup_ainsert_same _ _ _, ?_⟩
      cases i with
      | false => exact Or.inr rfl
      | true => exact Or.inl rfl
  | release i s hl hpc =>
      refine ⟨?_, ?_, ?_, h4⟩
      · intro j
        dsimp only
        by_cases hij : j = i
        · subst hij
          rw [updB_same]
          simp [PC.inCrit]
        · rw [updB_other _ _ _ _ hij]
          constructor
          · intro hcontra
            cases hcontra
          · intro hcrit
            have hlj := (h1 j).mpr hcrit
            rw [hl] at hlj
            exact absurd (Option.some_injective _ hlj).symm hij
      · intro j hj
        dsimp only at hj ⊢
        by_cases hij : j = i
        · subst hij
          rw [updB_same]
          exact Or.inr (Or.inr (Or.inr (Or.inr rfl)))
        · rw [updB_other _ _ _ _ hij]
          exact h2 j hj
      · intro j hj hpc'
        dsimp only at hj hpc' ⊢
        by_cases hij : j = i
        · subst hij
          exact h3 j hj (Or.inl hpc)
        · rw [updB_other _ _ _ _ hij] at hpc'
          exact h3 j hj hpc'

theorem cReach_inv {cfg : Config} {key act : String} {payload : Dict}
    {ctx : Bool → TaskCtx} {s₀ : ServerState} {s : CSys}
    (hW : 0 ≤ cfg.PORTAL_DEDUP_WINDOW_SECONDS)
    (hnear : |(ctx true).now - (ctx false).now| ≤ cfg.PORTAL_DEDUP_WINDOW_SECONDS)
    (hreach : CReach cfg key act payload ctx s₀ s) : CInv key ctx s := by
  induction hreach with
  | refl => exact cInv_init key ctx s₀
  | tail hs hstep ih => exact cInv_preserved hW hnear ih hstep

/-- C1: under the `job_lock` semantics, in every reachable interleaving
of two `enqueue_job` calls for the same dispatch key — each having
captured its `time.time()` before entering the lock, the two captures
within one dedup window of each other — the statements of the locked
body (dedup lookup, queue push, status insert, dedup-index overwrite)
of one call never interleave with the other's (the two calls are never
both inside the critical section), and as a consequence the two calls
never both create a new job, whatever server state they started from. -/
theorem enqueue_critical_section_atomic (cfg : Config) (key act : String)
    (payload : Dict) (ctx : Bool → TaskCtx) (s₀ : ServerState) (s : CSys)
    (hW : 0 ≤ cfg.PORTAL_DEDUP_WINDOW_SECONDS)
    (hnear : |(ctx true).now - (ctx false).now| ≤ cfg.PORTAL_DEDUP_WINDOW_SECONDS)
    (hreach : CReach cfg key act payload ctx s₀ s) :
    (¬((s.pc true).inCrit = true ∧ (s.pc false).inCrit = true)) ∧
    ¬(createdNewJob s true ∧ createdNewJob s false) := by
  obtain ⟨h1, h2, h3, h4⟩ := cReach_inv hW hnear hreach
  constructor
  · rintro ⟨htc, hfc⟩
    have hlt := (h1 true).mpr htc
    have hlf := (h1 false).mpr hfc
    rw [hlt] at hlf
    cases Option.some_injective _ hlf
  · exact h4

/-- Witness for C1 at the initial interleaving state, times 0 and 10,
window 60. -/
theorem enqueue_critical_section_atomic_witness :
    (¬(((CSys.init ServerState.init).pc true).inCrit = true ∧
       ((CSys.init ServerState.init).pc false).inCrit = true)) ∧
    ¬(createdNewJob (CSys.init ServerState.init) true ∧
      createdNewJob (CSys.init ServerState.init) false) :=
  enqueue_critical_section_atomic cfgDemo "dly" "open_daily" []
    (fun i => if i then { now := 0, nowIso := "t0", fresh_id := "j1" }
              else { now := 10, nowIso := "t10", fresh_id := "j2" })
    ServerState.init (CSys.init ServerState.init) (by decide) (by decide)
    Relation.ReflTransGen.refl

/-! ### C10: the webhook handler mutates the stored record in place -/

/-- C10: on an accepted (non-deduplicated) dispatch, the dict
`enqueue_job` returns is the very object the store maps the new job id
to (same heap address); right after `enqueue_job` that stored record has
no `accepted_at`, and the handler's `job_info['accepted_at'] = ...`
line — run outside the lock, after dispatch returned — is visible
through the store: the stored record of every accepted webhook job gains
`accepted_at`, written by the handler rather than the dispatcher. -/
theorem webhook_accepted_at_mutates_store (cfg : Config) (now : Int)
    (nowIso acceptIso fresh_id key act : String) (payload : Dict) (s : HeapState)
    (hmiss : ∀ e, alookup s.portal_last_job key = some e →
      now - e.enqueued_at > cfg.PORTAL_DEDUP_WINDOW_SECONDS) :
    alookup (enqueue_job_heap cfg now nowIso fresh_id key act payload s).2.job_status
        fresh_id =
      some (enqueue_job_heap cfg now nowIso fresh_id key act payload s).1 ∧
    alookup (enqueue_job_heap cfg now nowIso fresh_id key act payload s).2.heap
        (enqueue_job_heap cfg now nowIso fresh_id key act payload s).1 =
      some { job_id := fresh_id, status := JobStatus.queued, portal_id := key,
             action := act, created_at := some nowIso,
             updated_at := some nowIso } ∧
    (portal_webhook_dispatch_heap cfg now nowIso acceptIso fresh_id key act
        payload s).1 =
      (enqueue_job_heap cfg now nowIso fresh_id key act payload s).1 ∧
    alookup (portal_webhook_dispatch_heap cfg now nowIso acceptIso fresh_id key
        act payload s).2.job_status fresh_id =
      some (enqueue_job_heap cfg now nowIso fresh_id key act payload s).1 ∧
    alookup (portal_webhook_dispatch_heap cfg now nowIso acceptIso fresh_id key
        act payload s).2.heap
        (enqueue_job_heap cfg now nowIso fresh_id key act payload s).1 =
      some { job_id := fresh_id, status := JobStatus.queued, portal_id := key,
             action := act, created_at := some nowIso,
             updated_at := some nowIso, accepted_at := some acceptIso } := by
  have hacc : enqueue_job_heap cfg now nowIso fresh_id key act payload s =
      enqueue_job_heap.enqueue_new_heap now nowIso fresh_id key act payload s := by
    unfold enqueue_job_heap
    match hl : alookup s.portal_last_job key with
    | Option.none => rfl
    | some e => simp [not_le.mpr (hmiss e hl)]
  refine ⟨?_, ?_, ?_, ?_, ?_⟩
  · rw [hacc]
    exact alookup_ainsert_same _ _ _
  · rw [hacc]
    exact alookup_ainsert_same _ _ _
  · unfold portal_webhook_dispatch_heap
    rfl
  · unfold portal_webhook_dispatch_heap
    rw [hacc]
    exact alookup_ainsert_same _ _ _
  · unfold portal_webhook_dispatch_heap
    rw [hacc]
    show alookup (aupdate _ _ _) _ = _
    rw [alookup_aupdate_same]
    rw [show alookup
        (enqueue_job_heap.enqueue_new_heap now nowIso fresh_id key act payload
          s).2.heap
        (enqueue_job_heap.enqueue_new_heap now nowIso fresh_id key act payload
          s).1 =
      some { job_id := fresh_id, status := JobStatus.queued, portal_id := key,
             action := act, created_at := some nowIso,
             updated_at := some nowIso }
      from alookup_ainsert_same _ _ _]
    rfl

/-- Witness for C10: dispatch from the empty heap state. -/
theorem webhook_accepted_at_mutates_store_witness :
    alookup (enqueue_job_heap cfgDemo 0 "t0" "j1" "dly" "open_daily" []
        { heap := [], job_queue := [], job_status := [], portal_last_job := [],
          next_addr := 0 }).2.job_status "j1" =
      some (enqueue_job_heap cfgDemo 0 "t0" "j1" "dly" "open_daily" []
        { heap := [], job_queue := [], job_status := [], portal_last_job := [],
          next_addr := 0 }).1 ∧
    alookup (enqueue_job_heap cfgDemo 0 "t0" "j1" "dly" "open_daily" []
        { heap := [], job_queue := [], job_status := [], portal_last_job := [],
          next_addr := 0 }).2.heap
        (enqueue_job_heap cfgDemo 0 "t0" "j1" "dly" "open_daily" []
          { heap := [], job_queue := [], job_status := [], portal_last_job := [],
            next_addr := 0 }).1 =
      some { job_id := "j1", status := JobStatus.queued, portal_id := "dly",
             action := "open_daily", created_at := some "t0",
             updated_at := some "t0" } ∧
    (portal_webhook_dispatch_heap cfgDemo 0 "t0" "ta" "j1" "dly" "open_daily" []
        { heap := [], job_queue := [], job_status := [], portal_last_job := [],
          next_addr := 0 }).1 =
      (enqueue_job_heap cfgDemo 0 "t0" "j1" "dly" "open_daily" []
        { heap := [], job_queue := [], job_status := [], portal_last_job := [],
          next_addr := 0 }).1 ∧
    alookup (portal_webhook_dispatch_heap cfgDemo 0 "t0" "ta" "j1" "dly"
        "open_daily" []
        { heap := [], job_queue := [], job_status := [], portal_last_job := [],
          next_addr := 0 }).2.job_status "j1" =
      some (enqueue_job_heap cfgDemo 0 "t0" "j1" "dly" "open_daily" []
        { heap := [], job_queue := [], job_status := [], portal_last_job := [],
          next_addr := 0 }).1 ∧
    alookup (portal_webhook_dispatch_heap cfgDemo 0 "t0" "ta" "j1" "dly"
        "open_daily" []
        { heap := [], job_queue := [], job_status := [], portal_last_job := [],
          next_addr := 0 }).2.heap
        (enqueue_job_heap cfgDemo 0 "t0" "j1" "dly" "open_daily" []
          { heap := [], job_queue := [], job_status := [], portal_last_job := [],
            next_addr := 0 }).1 =
      some { job_id := "j1", status := JobStatus.queued, portal_id := "dly",
             action := "open_daily", created_at := some "t0",
             updated_at := some "t0", accepted_at := some "ta" } :=
  webhook_accepted_at_mutates_store cfgDemo 0 "t0" "ta" "j1" "dly" "open_daily"
    [] { heap := [], job_queue := [], job_status := [], portal_last_job := [],
         next_addr := 0 }
    (fun e he => by cases he)

end Portal
